import Mathlib

/-!
Verification of the SophT-backend stencil kernels: a shallow embedding of
the 2D outplane-field curl kernel, the 3D vorticity accumulators and the
2D boundary-penalisation kernel, with theorems settling the spec claims.

Fields are modelled as total functions from grid indices to exact numbers
(ℚ for the pure finite-difference kernels, ℝ for the sine-taper kernel);
a grid of shape (n, m) only uses indices i < n, j < m.  The pystencils
kernels with a radius-1 stencil and no iteration slice write exactly the
interior points 1 ≤ i ≤ n-2 (per axis); kernels given an iteration slice
write exactly that slice.
-/

namespace SophT

/-- A 2D scalar field over exact rationals (indices: row i, column j). -/
def Field2 : Type := ℕ → ℕ → ℚ

/-- Interior of an (n, m) grid for a radius-1 stencil: the set of points a
pystencils kernel with one ghost layer iterates over. -/
def interior2d (n m i j : ℕ) : Prop :=
  1 ≤ i ∧ i + 1 < n ∧ 1 ≤ j ∧ j + 1 < m

instance (n m i j : ℕ) : Decidable (interior2d n m i j) := by
  unfold interior2d; infer_instance

/-- `_outplane_field_curl_x_stencil_2d`:
`curl_x[0,0] @= (field[1,0] - field[-1,0]) * prefactor` on the interior. -/
def outplane_field_curl_x_kernel_2d
    (n m : ℕ) (curl_x field : Field2) (prefactor : ℚ) : Field2 :=
  fun i j =>
    if interior2d n m i j then (field (i + 1) j - field (i - 1) j) * prefactor
    else curl_x i j

/-- `_outplane_field_curl_y_stencil_2d`:
`curl_y[0,0] @= (field[0,-1] - field[0,1]) * prefactor` on the interior. -/
def outplane_field_curl_y_kernel_2d
    (n m : ℕ) (curl_y field : Field2) (prefactor : ℚ) : Field2 :=
  fun i j =>
    if interior2d n m i j then (field i (j - 1) - field i (j + 1)) * prefactor
    else curl_y i j

/-- Modelled from the spec: the Elementwise Boundary Setter
(`gen_set_fixed_val_at_boundaries_pyst_kernel_2d`, whose source file
`elementwise_ops_2d.py` is not part of this tree) overwrites every cell
within `width` grid points of every edge with the fixed value and leaves
all other cells untouched. -/
def set_fixed_val_at_boundaries_2d
    (n m width : ℕ) (field : Field2) (fixed_val : ℚ) : Field2 :=
  fun i j =>
    if i < width ∨ n ≤ i + width ∨ j < width ∨ m ≤ j + width then fixed_val
    else field i j

/-- `outplane_field_curl_pyst_kernel_2d`: run the x and y component stencils,
then zero both curl components on the width-1 boundary ring. -/
def outplane_field_curl_pyst_kernel_2d
    (n m : ℕ) (curl0 curl1 field : Field2) (prefactor : ℚ) :
    Field2 × Field2 :=
  let c0 := outplane_field_curl_x_kernel_2d n m curl0 field prefactor
  let c1 := outplane_field_curl_y_kernel_2d n m curl1 field prefactor
  (set_fixed_val_at_boundaries_2d n m 1 c0 0,
   set_fixed_val_at_boundaries_2d n m 1 c1 0)

/-- A 3D scalar field over exact rationals (indices i, j, k). -/
def Field3 : Type := ℕ → ℕ → ℕ → ℚ

/-- A 3D vector field: one scalar component field per spatial axis. -/
@[ext]
structure VecField3 where
  x : Field3
  y : Field3
  z : Field3

/-- Interior of an (n0, n1, n2) grid for a radius-1 stencil. -/
def interior3d (n0 n1 n2 i j k : ℕ) : Prop :=
  1 ≤ i ∧ i + 1 < n0 ∧ 1 ≤ j ∧ j + 1 < n1 ∧ 1 ≤ k ∧ k + 1 < n2

instance (n0 n1 n2 i j k : ℕ) : Decidable (interior3d n0 n1 n2 i j k) := by
  unfold interior3d; infer_instance

/-- `_update_vorticity_from_velocity_forcing_x_comp_stencil_3d`:
`w_x @= w_x + prefactor * (fz[0,1,0] - fz[0,-1,0] - fy[1,0,0] + fy[-1,0,0])`
on the interior. -/
def update_vorticity_from_velocity_forcing_x_comp_kernel_3d
    (n0 n1 n2 : ℕ) (vorticity_field_x fy fz : Field3) (prefactor : ℚ) :
    Field3 :=
  fun i j k =>
    if interior3d n0 n1 n2 i j k then
      vorticity_field_x i j k + prefactor *
        (fz i (j + 1) k - fz i (j - 1) k - fy (i + 1) j k + fy (i - 1) j k)
    else vorticity_field_x i j k

/-- `_update_vorticity_from_velocity_forcing_y_comp_stencil_3d`:
`w_y @= w_y + prefactor * (fx[1,0,0] - fx[-1,0,0] - fz[0,0,1] + fz[0,0,-1])`
on the interior. -/
def update_vorticity_from_velocity_forcing_y_comp_kernel_3d
    (n0 n1 n2 : ℕ) (vorticity_field_y fx fz : Field3) (prefactor : ℚ) :
    Field3 :=
  fun i j k =>
    if interior3d n0 n1 n2 i j k then
      vorticity_field_y i j k + prefactor *
        (fx (i + 1) j k - fx (i - 1) j k - fz i j (k + 1) + fz i j (k - 1))
    else vorticity_field_y i j k

/-- `_update_vorticity_from_velocity_forcing_z_comp_stencil_3d`:
`w_z @= w_z + prefactor * (fy[0,0,1] - fy[0,0,-1] - fx[0,1,0] + fx[0,-1,0])`
on the interior. -/
def update_vorticity_from_velocity_forcing_z_comp_kernel_3d
    (n0 n1 n2 : ℕ) (vorticity_field_z fx fy : Field3) (prefactor : ℚ) :
    Field3 :=
  fun i j k =>
    if interior3d n0 n1 n2 i j k then
      vorticity_field_z i j k + prefactor *
        (fy i j (k + 1) - fy i j (k - 1) - fx i (j + 1) k + fx i (j - 1) k)
    else vorticity_field_z i j k

/-- `update_vorticity_from_velocity_forcing_pyst_kernel_3d`: apply the three
component stencils, each reading only the two other forcing components. -/
def update_vorticity_from_velocity_forcing_pyst_kernel_3d
    (n0 n1 n2 : ℕ) (vorticity_field velocity_forcing_field : VecField3)
    (prefactor : ℚ) : VecField3 where
  x := update_vorticity_from_velocity_forcing_x_comp_kernel_3d n0 n1 n2
    vorticity_field.x velocity_forcing_field.y velocity_forcing_field.z
    prefactor
  y := update_vorticity_from_velocity_forcing_y_comp_kernel_3d n0 n1 n2
    vorticity_field.y velocity_forcing_field.x velocity_forcing_field.z
    prefactor
  z := update_vorticity_from_velocity_forcing_z_comp_kernel_3d n0 n1 n2
    vorticity_field.z velocity_forcing_field.x velocity_forcing_field.y
    prefactor

/-- `_update_vorticity_from_penalised_velocity_x_comp_stencil_3d`: the x
curl term with each forcing value replaced pointwise by the difference of
penalised velocity and velocity. -/
def update_vorticity_from_penalised_velocity_x_comp_kernel_3d
    (n0 n1 n2 : ℕ) (vorticity_field_x vy vz py pz : Field3)
    (prefactor : ℚ) : Field3 :=
  fun i j k =>
    if interior3d n0 n1 n2 i j k then
      vorticity_field_x i j k + prefactor *
        (pz i (j + 1) k - vz i (j + 1) k - pz i (j - 1) k + vz i (j - 1) k
          - py (i + 1) j k + vy (i + 1) j k + py (i - 1) j k - vy (i - 1) j k)
    else vorticity_field_x i j k

/-- `_update_vorticity_from_penalised_velocity_y_comp_stencil_3d`. -/
def update_vorticity_from_penalised_velocity_y_comp_kernel_3d
    (n0 n1 n2 : ℕ) (vorticity_field_y vx vz px pz : Field3)
    (prefactor : ℚ) : Field3 :=
  fun i j k =>
    if interior3d n0 n1 n2 i j k then
      vorticity_field_y i j k + prefactor *
        (px (i + 1) j k - vx (i + 1) j k - px (i - 1) j k + vx (i - 1) j k
          - pz i j (k + 1) + vz i j (k + 1) + pz i j (k - 1) - vz i j (k - 1))
    else vorticity_field_y i j k

/-- `_update_vorticity_from_penalised_velocity_z_comp_stencil_3d`. -/
def update_vorticity_from_penalised_velocity_z_comp_kernel_3d
    (n0 n1 n2 : ℕ) (vorticity_field_z vx vy px py : Field3)
    (prefactor : ℚ) : Field3 :=
  fun i j k =>
    if interior3d n0 n1 n2 i j k then
      vorticity_field_z i j k + prefactor *
        (py i j (k + 1) - vy i j (k + 1) - py i j (k - 1) + vy i j (k - 1)
          - px i (j + 1) k + vx i (j + 1) k + px i (j - 1) k - vx i (j - 1) k)
    else vorticity_field_z i j k

/-- `update_vorticity_from_penalised_velocity_kernel_3d`: apply the three
penalised-difference component stencils. -/
def update_vorticity_from_penalised_velocity_kernel_3d
    (n0 n1 n2 : ℕ)
    (vorticity_field penalised_velocity_field velocity_field : VecField3)
    (prefactor : ℚ) : VecField3 where
  x := update_vorticity_from_penalised_velocity_x_comp_kernel_3d n0 n1 n2
    vorticity_field.x velocity_field.y velocity_field.z
    penalised_velocity_field.y penalised_velocity_field.z prefactor
  y := update_vorticity_from_penalised_velocity_y_comp_kernel_3d n0 n1 n2
    vorticity_field.y velocity_field.x velocity_field.z
    penalised_velocity_field.x penalised_velocity_field.z prefactor
  z := update_vorticity_from_penalised_velocity_z_comp_kernel_3d n0 n1 n2
    vorticity_field.z velocity_field.x velocity_field.y
    penalised_velocity_field.x penalised_velocity_field.y prefactor

/-- A 2D scalar field over the reals (the penalisation kernel applies a
sine, so its fields live in ℝ). -/
def Field2R : Type := ℕ → ℕ → ℝ

/-- `sine_prefactor = (np.pi / 2) / (width * dx)`, fixed at construction of
the boundary-penalisation kernel. -/
noncomputable def sine_prefactor (width : ℕ) (dx : ℝ) : ℝ :=
  Real.pi / 2 / (width * dx)

/-- A Python numeric argument: its exact value together with whether it is
an instance of `int`. -/
structure PyNumber where
  val : ℚ
  isInt : Bool

/-- The static arguments handed to
`gen_penalise_field_boundary_pyst_kernel_2d`: the requested band width and
the shapes of the grid and of the two coordinate-field buffers. -/
structure PenaliseConstructArgs where
  width : PyNumber
  grid_shape : ℕ × ℕ
  x_grid_field_shape : ℕ × ℕ
  y_grid_field_shape : ℕ × ℕ

/-- The construction-time validation performed by
`gen_penalise_field_boundary_pyst_kernel_2d`: the only check executed is
`assert width > 0 and isinstance(width, int)`; the coordinate-field shapes
are never compared against the grid shape. -/
def gen_penalise_field_boundary_pyst_kernel_2d_check
    (a : PenaliseConstructArgs) : Except String Unit :=
  if 0 < a.width.val ∧ a.width.isInt = true then Except.ok ()
  else Except.error "invalid zone width"

/-- Multiplicative taper applied by the x-front band stencil:
`sin(sine_prefactor * (x_grid_field[0,0 at (i,j)] - x_grid_field_start))`. -/
noncomputable def taper_x_front
    (w : ℕ) (dx : ℝ) (x_grid_field : Field2R) (i j : ℕ) : ℝ :=
  Real.sin (sine_prefactor w dx * (x_grid_field i j - x_grid_field 0 0))

/-- Multiplicative taper applied by the x-back band stencil, mirrored from
`x_grid_field_end = x_grid_field[0,-1]`. -/
noncomputable def taper_x_back
    (m w : ℕ) (dx : ℝ) (x_grid_field : Field2R) (i j : ℕ) : ℝ :=
  Real.sin (sine_prefactor w dx * (x_grid_field 0 (m - 1) - x_grid_field i j))

/-- Multiplicative taper applied by the y-front band stencil. -/
noncomputable def taper_y_front
    (w : ℕ) (dx : ℝ) (y_grid_field : Field2R) (i j : ℕ) : ℝ :=
  Real.sin (sine_prefactor w dx * (y_grid_field i j - y_grid_field 0 0))

/-- Multiplicative taper applied by the y-back band stencil, mirrored from
`y_grid_field_end = y_grid_field[-1,0]`. -/
noncomputable def taper_y_back
    (n w : ℕ) (dx : ℝ) (y_grid_field : Field2R) (i j : ℕ) : ℝ :=
  Real.sin (sine_prefactor w dx * (y_grid_field (n - 1) 0 - y_grid_field i j))

/-- `penalise_field_x_front_boundary_stencil_2d` over the iteration slice
`[:, :width]`. -/
noncomputable def penalise_field_x_front_boundary_kernel_2d
    (w : ℕ) (dx : ℝ) (x_grid_field : Field2R) (field : Field2R) : Field2R :=
  fun i j =>
    if j < w then field i j * taper_x_front w dx x_grid_field i j
    else field i j

/-- `penalise_field_x_back_boundary_stencil_2d` over the iteration slice
`[:, -width:]`. -/
noncomputable def penalise_field_x_back_boundary_kernel_2d
    (m w : ℕ) (dx : ℝ) (x_grid_field : Field2R) (field : Field2R) :
    Field2R :=
  fun i j =>
    if m ≤ j + w then field i j * taper_x_back m w dx x_grid_field i j
    else field i j

/-- `penalise_field_y_front_boundary_stencil_2d` over the iteration slice
`[:width, :]`. -/
noncomputable def penalise_field_y_front_boundary_kernel_2d
    (w : ℕ) (dx : ℝ) (y_grid_field : Field2R) (field : Field2R) : Field2R :=
  fun i j =>
    if i < w then field i j * taper_y_front w dx y_grid_field i j
    else field i j

/-- `penalise_field_y_back_boundary_stencil_2d` over the iteration slice
`[-width:, :]`. -/
noncomputable def penalise_field_y_back_boundary_kernel_2d
    (n w : ℕ) (dx : ℝ) (y_grid_field : Field2R) (field : Field2R) :
    Field2R :=
  fun i j =>
    if n ≤ i + w then field i j * taper_y_back n w dx y_grid_field i j
    else field i j

/-- `field[:, :width] = field[:, (width - 1):width]`: broadcast the
innermost x-front band column across the band. -/
def broadcast_x_front (w : ℕ) (field : Field2R) : Field2R :=
  fun i j => if j < w then field i (w - 1) else field i j

/-- `field[:, -width:] = field[:, -width:(-width + 1)]`: broadcast the
innermost x-back band column (index m - width) across the band. -/
def broadcast_x_back (m w : ℕ) (field : Field2R) : Field2R :=
  fun i j => if m ≤ j + w then field i (m - w) else field i j

/-- `field[:width, :] = field[(width - 1):width, :]`. -/
def broadcast_y_front (w : ℕ) (field : Field2R) : Field2R :=
  fun i j => if i < w then field (w - 1) j else field i j

/-- `field[-width:, :] = field[-width:(-width + 1), :]`. -/
def broadcast_y_back (n w : ℕ) (field : Field2R) : Field2R :=
  fun i j => if n ≤ i + w then field (n - w) j else field i j

/-- The eight sequential stages of `penalise_field_boundary_pyst_kernel_2d`
on an (n, m) grid: x-front/x-back broadcasts, x-front/x-back sine stencils,
then the same along y. -/
noncomputable def penalise_field_boundary_stages_2d
    (n m w : ℕ) (dx : ℝ) (x_grid_field y_grid_field : Field2R)
    (field : Field2R) : Field2R :=
  penalise_field_y_back_boundary_kernel_2d n w dx y_grid_field
    (penalise_field_y_front_boundary_kernel_2d w dx y_grid_field
      (broadcast_y_back n w
        (broadcast_y_front w
          (penalise_field_x_back_boundary_kernel_2d m w dx x_grid_field
            (penalise_field_x_front_boundary_kernel_2d w dx x_grid_field
              (broadcast_x_back m w
                (broadcast_x_front w field)))))))

/-- `penalise_field_boundary_pyst_kernel_2d`.  For `width = 1` the slice
`field[:, -width:(-width + 1)]` is `field[:, -1:0]`, an empty array, and
numpy raises a broadcast error when assigning it into the one-column back
band, so the call fails; otherwise the eight stages run in order. -/
noncomputable def penalise_field_boundary_pyst_kernel_2d
    (n m w : ℕ) (dx : ℝ) (x_grid_field y_grid_field : Field2R)
    (field : Field2R) : Except String Field2R :=
  if w = 1 then Except.error "could not broadcast input array"
  else Except.ok
    (penalise_field_boundary_stages_2d n m w dx x_grid_field y_grid_field
      field)

end SophT

open SophT

/-- C2: for a 2D scalar field of shape (n, m) with n, m ≥ 3 and any interior
point (i, j) (1 ≤ i ≤ n-2, 1 ≤ j ≤ m-2), after the 2D curl operator runs,
`curl[0][i,j] = prefactor * (field[i+1,j] - field[i-1,j])` and
`curl[1][i,j] = prefactor * (field[i,j-1] - field[i,j+1])`. -/
theorem curl2d_interior_formula
    (n m i j : ℕ) (curl0 curl1 field : Field2) (prefactor : ℚ)
    (hn : 3 ≤ n) (hm : 3 ≤ m)
    (hi1 : 1 ≤ i) (hi2 : i ≤ n - 2) (hj1 : 1 ≤ j) (hj2 : j ≤ m - 2) :
    (outplane_field_curl_pyst_kernel_2d n m curl0 curl1 field prefactor).1 i j
      = prefactor * (field (i + 1) j - field (i - 1) j) ∧
    (outplane_field_curl_pyst_kernel_2d n m curl0 curl1 field prefactor).2 i j
      = prefactor * (field i (j - 1) - field i (j + 1)) := by
  have hint : interior2d n m i j := by unfold interior2d; omega
  have hring : ¬ (i < 1 ∨ n ≤ i + 1 ∨ j < 1 ∨ m ≤ j + 1) := by omega
  constructor
  · show set_fixed_val_at_boundaries_2d n m 1
      (outplane_field_curl_x_kernel_2d n m curl0 field prefactor) 0 i j = _
    unfold set_fixed_val_at_boundaries_2d outplane_field_curl_x_kernel_2d
    rw [if_neg hring, if_pos hint]; ring
  · show set_fixed_val_at_boundaries_2d n m 1
      (outplane_field_curl_y_kernel_2d n m curl1 field prefactor) 0 i j = _
    unfold set_fixed_val_at_boundaries_2d outplane_field_curl_y_kernel_2d
    rw [if_neg hring, if_pos hint]; ring

/-- Witness for C2: a concrete 4×5 grid, field(i,j) = i·10 + j, prefactor 2,
interior point (1, 2). -/
theorem curl2d_interior_formula_witness :
    (outplane_field_curl_pyst_kernel_2d 4 5
        (fun _ _ => 7) (fun _ _ => 9) (fun i j => 10 * i + j) 2).1 1 2
      = 2 * ((10 * 2 + 2 : ℚ) - (10 * 0 + 2)) ∧
    (outplane_field_curl_pyst_kernel_2d 4 5
        (fun _ _ => 7) (fun _ _ => 9) (fun i j => 10 * i + j) 2).2 1 2
      = 2 * ((10 * 1 + 1 : ℚ) - (10 * 1 + 3)) := by
  have h := curl2d_interior_formula 4 5 1 2
    (fun _ _ => 7) (fun _ _ => 9) (fun i j => 10 * i + j) 2
    (by decide) (by decide) (by decide) (by decide) (by decide) (by decide)
  exact ⟨h.1.trans (by norm_num), h.2.trans (by norm_num)⟩

/-- C4: for a 2D scalar field with both extents ≥ 3, after the 2D curl
operator runs, both curl components are exactly 0 at every point within one
cell of any edge (the outermost ring). -/
theorem curl2d_zero_boundary
    (n m i j : ℕ) (curl0 curl1 field : Field2) (prefactor : ℚ)
    (hn : 3 ≤ n) (hm : 3 ≤ m) (hi : i < n) (hj : j < m)
    (hring : i = 0 ∨ i = n - 1 ∨ j = 0 ∨ j = m - 1) :
    (outplane_field_curl_pyst_kernel_2d n m curl0 curl1 field prefactor).1 i j
      = 0 ∧
    (outplane_field_curl_pyst_kernel_2d n m curl0 curl1 field prefactor).2 i j
      = 0 := by
  have hcond : i < 1 ∨ n ≤ i + 1 ∨ j < 1 ∨ m ≤ j + 1 := by omega
  constructor
  · show set_fixed_val_at_boundaries_2d n m 1
      (outplane_field_curl_x_kernel_2d n m curl0 field prefactor) 0 i j = 0
    unfold set_fixed_val_at_boundaries_2d
    rw [if_pos hcond]
  · show set_fixed_val_at_boundaries_2d n m 1
      (outplane_field_curl_y_kernel_2d n m curl1 field prefactor) 0 i j = 0
    unfold set_fixed_val_at_boundaries_2d
    rw [if_pos hcond]

/-- Witness for C4: on a 3×4 grid with nonzero initial curl buffers, the
corner (0, 0) and the edge point (1, 3) are zeroed. -/
theorem curl2d_zero_boundary_witness :
    (outplane_field_curl_pyst_kernel_2d 3 4
        (fun _ _ => 5) (fun _ _ => 6) (fun i j => 10 * i + j) 2).1 0 0 = 0 ∧
    (outplane_field_curl_pyst_kernel_2d 3 4
        (fun _ _ => 5) (fun _ _ => 6) (fun i j => 10 * i + j) 2).2 1 3 = 0 := by
  refine ⟨(curl2d_zero_boundary 3 4 0 0 (fun _ _ => 5) (fun _ _ => 6)
      (fun i j => 10 * i + j) 2 (by decide) (by decide) (by decide) (by decide)
      (by decide)).1,
    (curl2d_zero_boundary 3 4 1 3 (fun _ _ => 5) (fun _ _ => 6)
      (fun i j => 10 * i + j) 2 (by decide) (by decide) (by decide) (by decide)
      (by decide)).2⟩

/-- C10: the 2D curl operator's output is independent of the prior contents
of the curl buffers: every in-grid cell is either an interior cell written by
the stencil or a ring cell zeroed by the boundary setter, so two runs with
the same field and prefactor but different initial curl buffers agree
everywhere on the grid. -/
theorem curl2d_output_independent_of_buffer
    (n m i j : ℕ) (curl0 curl1 curl0' curl1' field : Field2) (prefactor : ℚ)
    (hn : 3 ≤ n) (hm : 3 ≤ m) (hi : i < n) (hj : j < m) :
    (outplane_field_curl_pyst_kernel_2d n m curl0 curl1 field prefactor).1 i j
      = (outplane_field_curl_pyst_kernel_2d n m curl0' curl1' field
          prefactor).1 i j ∧
    (outplane_field_curl_pyst_kernel_2d n m curl0 curl1 field prefactor).2 i j
      = (outplane_field_curl_pyst_kernel_2d n m curl0' curl1' field
          prefactor).2 i j := by
  by_cases hring : i < 1 ∨ n ≤ i + 1 ∨ j < 1 ∨ m ≤ j + 1
  · constructor
    · show set_fixed_val_at_boundaries_2d n m 1 _ 0 i j
        = set_fixed_val_at_boundaries_2d n m 1 _ 0 i j
      unfold set_fixed_val_at_boundaries_2d
      rw [if_pos hring, if_pos hring]
    · show set_fixed_val_at_boundaries_2d n m 1 _ 0 i j
        = set_fixed_val_at_boundaries_2d n m 1 _ 0 i j
      unfold set_fixed_val_at_boundaries_2d
      rw [if_pos hring, if_pos hring]
  · have hint : interior2d n m i j := by unfold interior2d; omega
    constructor
    · show set_fixed_val_at_boundaries_2d n m 1
        (outplane_field_curl_x_kernel_2d n m curl0 field prefactor) 0 i j
        = set_fixed_val_at_boundaries_2d n m 1
        (outplane_field_curl_x_kernel_2d n m curl0' field prefactor) 0 i j
      unfold set_fixed_val_at_boundaries_2d outplane_field_curl_x_kernel_2d
      rw [if_neg hring, if_neg hring, if_pos hint, if_pos hint]
    · show set_fixed_val_at_boundaries_2d n m 1
        (outplane_field_curl_y_kernel_2d n m curl1 field prefactor) 0 i j
        = set_fixed_val_at_boundaries_2d n m 1
        (outplane_field_curl_y_kernel_2d n m curl1' field prefactor) 0 i j
      unfold set_fixed_val_at_boundaries_2d outplane_field_curl_y_kernel_2d
      rw [if_neg hring, if_neg hring, if_pos hint, if_pos hint]

/-- Witness for C10: two runs on a 3×3 grid with different initial curl
buffers agree at the centre cell (1, 1) for both components. -/
theorem curl2d_output_independent_of_buffer_witness :
    (outplane_field_curl_pyst_kernel_2d 3 3
        (fun _ _ => 1) (fun _ _ => 2) (fun i j => 10 * i + j) 3).1 1 1
      = (outplane_field_curl_pyst_kernel_2d 3 3
          (fun _ _ => 100) (fun _ _ => 200) (fun i j => 10 * i + j) 3).1 1 1 ∧
    (outplane_field_curl_pyst_kernel_2d 3 3
        (fun _ _ => 1) (fun _ _ => 2) (fun i j => 10 * i + j) 3).2 1 1
      = (outplane_field_curl_pyst_kernel_2d 3 3
          (fun _ _ => 100) (fun _ _ => 200) (fun i j => 10 * i + j) 3).2 1 1 := by
  exact curl2d_output_independent_of_buffer 3 3 1 1
    (fun _ _ => 1) (fun _ _ => 2) (fun _ _ => 100) (fun _ _ => 200)
    (fun i j => 10 * i + j) 3 (by decide) (by decide) (by decide) (by decide)

/-- C1: on every 3D grid, for identical initial vorticity fields and the same
prefactor, running the forcing accumulator with
`velocity_forcing_field = penalised_velocity_field - velocity_field`
(pointwise, over exact arithmetic) produces exactly the same final vorticity
field as running the penalised-velocity accumulator with (P, V). -/
theorem vorticity_accumulators_equivalent
    (n0 n1 n2 : ℕ) (vort F P V : VecField3) (prefactor : ℚ)
    (hx : ∀ i j k, F.x i j k = P.x i j k - V.x i j k)
    (hy : ∀ i j k, F.y i j k = P.y i j k - V.y i j k)
    (hz : ∀ i j k, F.z i j k = P.z i j k - V.z i j k) :
    update_vorticity_from_velocity_forcing_pyst_kernel_3d n0 n1 n2 vort F
      prefactor
    = update_vorticity_from_penalised_velocity_kernel_3d n0 n1 n2 vort P V
      prefactor := by
  apply VecField3.ext
  · funext i j k
    show update_vorticity_from_velocity_forcing_x_comp_kernel_3d n0 n1 n2
        vort.x F.y F.z prefactor i j k
      = update_vorticity_from_penalised_velocity_x_comp_kernel_3d n0 n1 n2
        vort.x V.y V.z P.y P.z prefactor i j k
    unfold update_vorticity_from_velocity_forcing_x_comp_kernel_3d
      update_vorticity_from_penalised_velocity_x_comp_kernel_3d
    split_ifs with h
    · simp only [hy, hz]; ring
    · rfl
  · funext i j k
    show update_vorticity_from_velocity_forcing_y_comp_kernel_3d n0 n1 n2
        vort.y F.x F.z prefactor i j k
      = update_vorticity_from_penalised_velocity_y_comp_kernel_3d n0 n1 n2
        vort.y V.x V.z P.x P.z prefactor i j k
    unfold update_vorticity_from_velocity_forcing_y_comp_kernel_3d
      update_vorticity_from_penalised_velocity_y_comp_kernel_3d
    split_ifs with h
    · simp only [hx, hz]; ring
    · rfl
  · funext i j k
    show update_vorticity_from_velocity_forcing_z_comp_kernel_3d n0 n1 n2
        vort.z F.x F.y prefactor i j k
      = update_vorticity_from_penalised_velocity_z_comp_kernel_3d n0 n1 n2
        vort.z V.x V.y P.x P.y prefactor i j k
    unfold update_vorticity_from_velocity_forcing_z_comp_kernel_3d
      update_vorticity_from_penalised_velocity_z_comp_kernel_3d
    split_ifs with h
    · simp only [hx, hy]; ring
    · rfl

/-- Witness for C1: a concrete 3×3×3 run with F defined pointwise as P - V
gives identical results from both accumulators. -/
theorem vorticity_accumulators_equivalent_witness :
    update_vorticity_from_velocity_forcing_pyst_kernel_3d 3 3 3
      ⟨fun i j k => i + j + k, fun i j k => i * j, fun i j k => j + 2 * k⟩
      ⟨fun i j k => ((i : ℚ) + 2 * j) - (j + k),
       fun i j k => ((j : ℚ) * k) - (i + 1),
       fun i j k => ((i : ℚ) + j * j) - (k + 2)⟩ 5
    = update_vorticity_from_penalised_velocity_kernel_3d 3 3 3
      ⟨fun i j k => i + j + k, fun i j k => i * j, fun i j k => j + 2 * k⟩
      ⟨fun i j k => (i : ℚ) + 2 * j, fun i j k => (j : ℚ) * k,
       fun i j k => (i : ℚ) + j * j⟩
      ⟨fun i j k => (j : ℚ) + k, fun i j k => (i : ℚ) + 1,
       fun i j k => (k : ℚ) + 2⟩ 5 :=
  vorticity_accumulators_equivalent 3 3 3
    ⟨fun i j k => i + j + k, fun i j k => i * j, fun i j k => j + 2 * k⟩
    ⟨fun i j k => ((i : ℚ) + 2 * j) - (j + k),
     fun i j k => ((j : ℚ) * k) - (i + 1),
     fun i j k => ((i : ℚ) + j * j) - (k + 2)⟩
    ⟨fun i j k => (i : ℚ) + 2 * j, fun i j k => (j : ℚ) * k,
     fun i j k => (i : ℚ) + j * j⟩
    ⟨fun i j k => (j : ℚ) + k, fun i j k => (i : ℚ) + 1,
     fun i j k => (k : ℚ) + 2⟩ 5
    (fun _ _ _ => rfl) (fun _ _ _ => rfl) (fun _ _ _ => rfl)

/-- C3: at every interior point of a 3D grid, the forcing accumulator adds
`prefactor` times the discrete curl of the forcing field into each vorticity
component (reading, per component, only the two other forcing components):
the final value is the initial value plus the increment. -/
theorem forcing_accumulator_adds_curl
    (n0 n1 n2 i j k : ℕ) (vort F : VecField3) (prefactor : ℚ)
    (hi1 : 1 ≤ i) (hi2 : i + 1 < n0) (hj1 : 1 ≤ j) (hj2 : j + 1 < n1)
    (hk1 : 1 ≤ k) (hk2 : k + 1 < n2) :
    (update_vorticity_from_velocity_forcing_pyst_kernel_3d n0 n1 n2 vort F
        prefactor).x i j k
      = vort.x i j k + prefactor *
          (F.z i (j + 1) k - F.z i (j - 1) k
            - F.y (i + 1) j k + F.y (i - 1) j k) ∧
    (update_vorticity_from_velocity_forcing_pyst_kernel_3d n0 n1 n2 vort F
        prefactor).y i j k
      = vort.y i j k + prefactor *
          (F.x (i + 1) j k - F.x (i - 1) j k
            - F.z i j (k + 1) + F.z i j (k - 1)) ∧
    (update_vorticity_from_velocity_forcing_pyst_kernel_3d n0 n1 n2 vort F
        prefactor).z i j k
      = vort.z i j k + prefactor *
          (F.y i j (k + 1) - F.y i j (k - 1)
            - F.x i (j + 1) k + F.x i (j - 1) k) := by
  have hint : interior3d n0 n1 n2 i j k := by unfold interior3d; omega
  refine ⟨?_, ?_, ?_⟩
  · show update_vorticity_from_velocity_forcing_x_comp_kernel_3d n0 n1 n2
      vort.x F.y F.z prefactor i j k = _
    unfold update_vorticity_from_velocity_forcing_x_comp_kernel_3d
    rw [if_pos hint]
  · show update_vorticity_from_velocity_forcing_y_comp_kernel_3d n0 n1 n2
      vort.y F.x F.z prefactor i j k = _
    unfold update_vorticity_from_velocity_forcing_y_comp_kernel_3d
    rw [if_pos hint]
  · show update_vorticity_from_velocity_forcing_z_comp_kernel_3d n0 n1 n2
      vort.z F.x F.y prefactor i j k = _
    unfold update_vorticity_from_velocity_forcing_z_comp_kernel_3d
    rw [if_pos hint]

/-- Witness for C3: the accumulation formula at the interior point (1,1,1)
of a concrete 3×3×3 run. -/
theorem forcing_accumulator_adds_curl_witness :
    (update_vorticity_from_velocity_forcing_pyst_kernel_3d 3 3 3
        ⟨fun i j k => i + j + k, fun i j k => i * j, fun i j k => j + 2 * k⟩
        ⟨fun i j k => (i : ℚ) * k, fun i j k => (i : ℚ) + j,
         fun i j k => (j : ℚ) * j + k⟩ 4).x 1 1 1
      = (1 + 1 + 1 : ℚ) + 4 * ((2 * 2 + 1) - (0 * 0 + 1) - (2 + 1) + (0 + 1)) := by
  have h := (forcing_accumulator_adds_curl 3 3 3 1 1 1
    ⟨fun i j k => i + j + k, fun i j k => i * j, fun i j k => j + 2 * k⟩
    ⟨fun i j k => (i : ℚ) * k, fun i j k => (i : ℚ) + j,
     fun i j k => (j : ℚ) * j + k⟩ 4
    (by decide) (by decide) (by decide) (by decide) (by decide) (by decide)).1
  exact h.trans (by norm_num)

/-- C8: both 3D accumulators leave every vorticity cell on the outermost
boundary ring unchanged: no stencil accumulation and no zeroing is applied
there. -/
theorem accumulators_leave_boundary_ring_unchanged
    (n0 n1 n2 i j k : ℕ) (vort F P V : VecField3) (prefactor : ℚ)
    (h0 : 3 ≤ n0) (h1 : 3 ≤ n1) (h2 : 3 ≤ n2)
    (hi : i < n0) (hj : j < n1) (hk : k < n2)
    (hring : i = 0 ∨ i = n0 - 1 ∨ j = 0 ∨ j = n1 - 1 ∨ k = 0 ∨ k = n2 - 1) :
    ((update_vorticity_from_velocity_forcing_pyst_kernel_3d n0 n1 n2 vort F
        prefactor).x i j k = vort.x i j k ∧
     (update_vorticity_from_velocity_forcing_pyst_kernel_3d n0 n1 n2 vort F
        prefactor).y i j k = vort.y i j k ∧
     (update_vorticity_from_velocity_forcing_pyst_kernel_3d n0 n1 n2 vort F
        prefactor).z i j k = vort.z i j k) ∧
    ((update_vorticity_from_penalised_velocity_kernel_3d n0 n1 n2 vort P V
        prefactor).x i j k = vort.x i j k ∧
     (update_vorticity_from_penalised_velocity_kernel_3d n0 n1 n2 vort P V
        prefactor).y i j k = vort.y i j k ∧
     (update_vorticity_from_penalised_velocity_kernel_3d n0 n1 n2 vort P V
        prefactor).z i j k = vort.z i j k) := by
  have hnot : ¬ interior3d n0 n1 n2 i j k := by unfold interior3d; omega
  refine ⟨⟨?_, ?_, ?_⟩, ?_, ?_, ?_⟩
  · show update_vorticity_from_velocity_forcing_x_comp_kernel_3d n0 n1 n2
      vort.x F.y F.z prefactor i j k = _
    unfold update_vorticity_from_velocity_forcing_x_comp_kernel_3d
    rw [if_neg hnot]
  · show update_vorticity_from_velocity_forcing_y_comp_kernel_3d n0 n1 n2
      vort.y F.x F.z prefactor i j k = _
    unfold update_vorticity_from_velocity_forcing_y_comp_kernel_3d
    rw [if_neg hnot]
  · show update_vorticity_from_velocity_forcing_z_comp_kernel_3d n0 n1 n2
      vort.z F.x F.y prefactor i j k = _
    unfold update_vorticity_from_velocity_forcing_z_comp_kernel_3d
    rw [if_neg hnot]
  · show update_vorticity_from_penalised_velocity_x_comp_kernel_3d n0 n1 n2
      vort.x V.y V.z P.y P.z prefactor i j k = _
    unfold update_vorticity_from_penalised_velocity_x_comp_kernel_3d
    rw [if_neg hnot]
  · show update_vorticity_from_penalised_velocity_y_comp_kernel_3d n0 n1 n2
      vort.y V.x V.z P.x P.z prefactor i j k = _
    unfold update_vorticity_from_penalised_velocity_y_comp_kernel_3d
    rw [if_neg hnot]
  · show update_vorticity_from_penalised_velocity_z_comp_kernel_3d n0 n1 n2
      vort.z V.x V.y P.x P.y prefactor i j k = _
    unfold update_vorticity_from_penalised_velocity_z_comp_kernel_3d
    rw [if_neg hnot]

/-- Witness for C8: on a 3×3×3 grid both accumulators leave the boundary
cell (0, 1, 2) exactly as it was. -/
theorem accumulators_leave_boundary_ring_unchanged_witness :
    (update_vorticity_from_velocity_forcing_pyst_kernel_3d 3 3 3
        ⟨fun i j k => i + j + k, fun i j k => i * j, fun i j k => j + 2 * k⟩
        ⟨fun i j k => (i : ℚ) * k, fun i j k => (i : ℚ) + j,
         fun i j k => (j : ℚ) * j + k⟩ 4).x 0 1 2 = (0 + 1 + 2 : ℚ) ∧
    (update_vorticity_from_penalised_velocity_kernel_3d 3 3 3
        ⟨fun i j k => i + j + k, fun i j k => i * j, fun i j k => j + 2 * k⟩
        ⟨fun i j k => (i : ℚ) + 2 * j, fun i j k => (j : ℚ) * k,
         fun i j k => (i : ℚ) + j * j⟩
        ⟨fun i j k => (j : ℚ) + k, fun i j k => (i : ℚ) + 1,
         fun i j k => (k : ℚ) + 2⟩ 4).x 0 1 2 = (0 + 1 + 2 : ℚ) := by
  have h := accumulators_leave_boundary_ring_unchanged 3 3 3 0 1 2
    ⟨fun i j k => i + j + k, fun i j k => i * j, fun i j k => j + 2 * k⟩
    ⟨fun i j k => (i : ℚ) * k, fun i j k => (i : ℚ) + j,
     fun i j k => (j : ℚ) * j + k⟩
    ⟨fun i j k => (i : ℚ) + 2 * j, fun i j k => (j : ℚ) * k,
     fun i j k => (i : ℚ) + j * j⟩
    ⟨fun i j k => (j : ℚ) + k, fun i j k => (i : ℚ) + 1,
     fun i j k => (k : ℚ) + 2⟩ 4
    (by decide) (by decide) (by decide) (by decide) (by decide) (by decide)
    (by decide)
  exact ⟨h.1.1, h.2.1⟩

/-- Helper: the taper phase at a cell `d` grid points from the band's outer
edge, for uniform coordinates of spacing dx. -/
theorem sine_prefactor_phase (w d : ℕ) (dx : ℝ) (hw : 1 ≤ w) (hdx : 0 < dx) :
    sine_prefactor w dx * ((d : ℝ) * dx) = Real.pi * d / (2 * w) := by
  unfold sine_prefactor
  have hw' : (w : ℝ) ≠ 0 := Nat.cast_ne_zero.mpr (by omega)
  have hdx' : dx ≠ 0 := ne_of_gt hdx
  field_simp
  ring

/-- Helper: the x-front taper under uniform coordinates `x(i,j) = x0 + j·dx`. -/
theorem taper_x_front_phase
    (w : ℕ) (dx x0 : ℝ) (xg : Field2R) (hw : 1 ≤ w) (hdx : 0 < dx)
    (hxg : ∀ i j, xg i j = x0 + j * dx) (i j : ℕ) :
    taper_x_front w dx xg i j = Real.sin (Real.pi * j / (2 * w)) := by
  unfold taper_x_front
  have e : xg i j - xg 0 0 = (j : ℝ) * dx := by
    rw [hxg, hxg]; push_cast; ring
  rw [e, sine_prefactor_phase w j dx hw hdx]

/-- Helper: the x-back taper under uniform coordinates, as a function of the
distance `m - 1 - j` from the outer edge. -/
theorem taper_x_back_phase
    (m w : ℕ) (dx x0 : ℝ) (xg : Field2R) (hw : 1 ≤ w) (hdx : 0 < dx)
    (hxg : ∀ i j, xg i j = x0 + j * dx) (i j : ℕ) (hj : j < m) :
    taper_x_back m w dx xg i j
      = Real.sin (Real.pi * (m - 1 - j : ℕ) / (2 * w)) := by
  unfold taper_x_back
  have hc : ((m - 1 - j : ℕ) : ℝ) = ((m - 1 : ℕ) : ℝ) - (j : ℝ) :=
    Nat.cast_sub (by omega)
  have e : xg 0 (m - 1) - xg i j = ((m - 1 - j : ℕ) : ℝ) * dx := by
    rw [hxg, hxg, hc]; ring
  rw [e, sine_prefactor_phase w (m - 1 - j) dx hw hdx]

/-- Helper: the y-front taper under uniform coordinates `y(i,j) = y0 + i·dx`. -/
theorem taper_y_front_phase
    (w : ℕ) (dx y0 : ℝ) (yg : Field2R) (hw : 1 ≤ w) (hdx : 0 < dx)
    (hyg : ∀ i j, yg i j = y0 + i * dx) (i j : ℕ) :
    taper_y_front w dx yg i j = Real.sin (Real.pi * i / (2 * w)) := by
  unfold taper_y_front
  have e : yg i j - yg 0 0 = (i : ℝ) * dx := by
    rw [hyg, hyg]; push_cast; ring
  rw [e, sine_prefactor_phase w i dx hw hdx]

/-- Helper: the y-back taper under uniform coordinates. -/
theorem taper_y_back_phase
    (n w : ℕ) (dx y0 : ℝ) (yg : Field2R) (hw : 1 ≤ w) (hdx : 0 < dx)
    (hyg : ∀ i j, yg i j = y0 + i * dx) (i j : ℕ) (hi : i < n) :
    taper_y_back n w dx yg i j
      = Real.sin (Real.pi * (n - 1 - i : ℕ) / (2 * w)) := by
  unfold taper_y_back
  have hc : ((n - 1 - i : ℕ) : ℝ) = ((n - 1 : ℕ) : ℝ) - (i : ℝ) :=
    Nat.cast_sub (by omega)
  have e : yg (n - 1) 0 - yg i j = ((n - 1 - i : ℕ) : ℝ) * dx := by
    rw [hyg, hyg, hc]; ring
  rw [e, sine_prefactor_phase w (n - 1 - i) dx hw hdx]

/-- Helper: `sin(π·d/(2w))` is non-decreasing in the offset `d` for
`d ≤ w`. -/
theorem taper_phase_mono (w d e : ℕ) (hw : 1 ≤ w) (hde : d ≤ e)
    (hew : e ≤ w) :
    Real.sin (Real.pi * d / (2 * w)) ≤ Real.sin (Real.pi * e / (2 * w)) := by
  have hpi := Real.pi_pos
  have hw0 : (0 : ℝ) < w := by exact_mod_cast Nat.lt_of_lt_of_le Nat.zero_lt_one hw
  apply Real.sin_le_sin_of_le_of_le_pi_div_two
  · have h0 : (0 : ℝ) ≤ Real.pi * d / (2 * w) := by positivity
    linarith
  · rw [div_le_div_iff₀ (by positivity) (by norm_num)]
    have hew' : (e : ℝ) ≤ w := by exact_mod_cast hew
    nlinarith
  · gcongr

/-- C5 counterexample: with width 2, dx = 1 and the uniform coordinate field
x(i,j) = j, the taper at the innermost cell of the x-front band (column 1)
is sin(π/4) = √2/2, not 1. -/
theorem taper_not_one_at_innermost_cell :
    taper_x_front 2 1 (fun _ j => (j : ℝ)) 0 1 ≠ 1 := by
  have e : taper_x_front 2 1 (fun _ j => (j : ℝ)) 0 1
      = Real.sin (Real.pi / 4) := by
    unfold taper_x_front sine_prefactor
    congr 1
    push_cast
    ring
  rw [e, Real.sin_pi_div_four]
  intro h
  have h3 : Real.sqrt 2 ^ 2 = 2 := Real.sq_sqrt (by norm_num)
  have h2 : Real.sqrt 2 = 2 := by linarith
  rw [h2] at h3
  norm_num at h3

/-- C5 amended: for every uniform monotone coordinate field of spacing dx,
the taper applied to a band cell at grid offset d from the band's outer edge
is sin(ω·d·dx) = sin((π/2)·d/width) with ω = (π/2)/(width·dx) fixed at
construction; it is exactly 0 at the outermost cell of each band, equals
sin((π/2)(width-1)/width) at the innermost cell of each band, and the taper
expression reaches exactly 1 only at offset width, i.e. one cell past the
innermost band cell. -/
theorem penalisation_taper_profile
    (n m w : ℕ) (dx x0 y0 : ℝ) (xg yg : Field2R)
    (hw : 1 ≤ w) (hdx : 0 < dx)
    (hxg : ∀ i j, xg i j = x0 + j * dx)
    (hyg : ∀ i j, yg i j = y0 + i * dx) :
    (∀ i j, j < w →
      taper_x_front w dx xg i j = Real.sin (Real.pi * j / (2 * w))) ∧
    (∀ i j, j < m →
      taper_x_back m w dx xg i j
        = Real.sin (Real.pi * (m - 1 - j : ℕ) / (2 * w))) ∧
    (∀ i j, i < w →
      taper_y_front w dx yg i j = Real.sin (Real.pi * i / (2 * w))) ∧
    (∀ i j, i < n →
      taper_y_back n w dx yg i j
        = Real.sin (Real.pi * (n - 1 - i : ℕ) / (2 * w))) ∧
    (∀ i, taper_x_front w dx xg i 0 = 0) ∧
    (∀ i, taper_x_back m w dx xg i (m - 1) = 0) ∧
    (∀ j, taper_y_front w dx yg 0 j = 0) ∧
    (∀ j, taper_y_back n w dx yg (n - 1) j = 0) ∧
    (∀ i, taper_x_front w dx xg i (w - 1)
        = Real.sin (Real.pi * (w - 1 : ℕ) / (2 * w))) ∧
    Real.sin (Real.pi * w / (2 * w)) = 1 := by
  have hw0 : (w : ℝ) ≠ 0 := Nat.cast_ne_zero.mpr (by omega)
  refine ⟨?_, ?_, ?_, ?_, ?_, ?_, ?_, ?_, ?_, ?_⟩
  · intro i j _
    exact taper_x_front_phase w dx x0 xg hw hdx hxg i j
  · intro i j hj
    exact taper_x_back_phase m w dx x0 xg hw hdx hxg i j hj
  · intro i j _
    exact taper_y_front_phase w dx y0 yg hw hdx hyg i j
  · intro i j hi
    exact taper_y_back_phase n w dx y0 yg hw hdx hyg i j hi
  · intro i
    unfold taper_x_front
    have e : xg i 0 - xg 0 0 = 0 := by rw [hxg, hxg]; ring
    rw [e, mul_zero, Real.sin_zero]
  · intro i
    unfold taper_x_back
    have e : xg 0 (m - 1) - xg i (m - 1) = 0 := by rw [hxg, hxg]; ring
    rw [e, mul_zero, Real.sin_zero]
  · intro j
    unfold taper_y_front
    have e : yg 0 j - yg 0 0 = 0 := by rw [hyg, hyg]; ring
    rw [e, mul_zero, Real.sin_zero]
  · intro j
    unfold taper_y_back
    have e : yg (n - 1) 0 - yg (n - 1) j = 0 := by rw [hyg, hyg]; ring
    rw [e, mul_zero, Real.sin_zero]
  · intro i
    exact taper_x_front_phase w dx x0 xg hw hdx hxg i (w - 1)
  · have e : Real.pi * w / (2 * w) = Real.pi / 2 := by
      field_simp
      ring
    rw [e, Real.sin_pi_div_two]

/-- Witness for the amended C5: width 2, dx = 1, x(i,j) = j, y(i,j) = i on a
5×5 grid; the x-front taper is 0 at the outer column and sin(π/4) at the
innermost band column. -/
theorem penalisation_taper_profile_witness :
    taper_x_front 2 1 (fun _ j => (j : ℝ)) 3 0 = 0 ∧
    taper_x_front 2 1 (fun _ j => (j : ℝ)) 3 1
      = Real.sin (Real.pi * (1 : ℕ) / (2 * (2 : ℕ))) := by
  have h := penalisation_taper_profile 5 5 2 1 0 0 (fun _ j => (j : ℝ))
    (fun i _ => (i : ℝ)) (by norm_num) (by norm_num)
    (fun i j => by norm_num) (fun i j => by norm_num)
  exact ⟨h.2.2.2.2.1 3, h.1 3 1 (by norm_num)⟩

/-- C9: for every valid construction with uniform monotone coordinates, the
taper factor within each boundary band is monotonically non-decreasing from
0 (at the band's outer edge) toward 1 (never exceeding 1) as the cell moves
inward. -/
theorem penalisation_taper_monotone
    (n m w : ℕ) (dx x0 y0 : ℝ) (xg yg : Field2R)
    (hw : 1 ≤ w) (hdx : 0 < dx)
    (hxg : ∀ i j, xg i j = x0 + j * dx)
    (hyg : ∀ i j, yg i j = y0 + i * dx) :
    (∀ i j j', j ≤ j' → j' < w →
      taper_x_front w dx xg i j ≤ taper_x_front w dx xg i j') ∧
    (∀ i j j', m ≤ j' + w → j' ≤ j → j < m →
      taper_x_back m w dx xg i j ≤ taper_x_back m w dx xg i j') ∧
    (∀ i i' j, i ≤ i' → i' < w →
      taper_y_front w dx yg i j ≤ taper_y_front w dx yg i' j) ∧
    (∀ i i' j, n ≤ i' + w → i' ≤ i → i < n →
      taper_y_back n w dx yg i j ≤ taper_y_back n w dx yg i' j) ∧
    (∀ i, taper_x_front w dx xg i 0 = 0) ∧
    (∀ i, taper_x_back m w dx xg i (m - 1) = 0) ∧
    (∀ j, taper_y_front w dx yg 0 j = 0) ∧
    (∀ j, taper_y_back n w dx yg (n - 1) j = 0) ∧
    (∀ i j, taper_x_front w dx xg i j ≤ 1) ∧
    (∀ i j, taper_x_back m w dx xg i j ≤ 1) ∧
    (∀ i j, taper_y_front w dx yg i j ≤ 1) ∧
    (∀ i j, taper_y_back n w dx yg i j ≤ 1) := by
  refine ⟨?_, ?_, ?_, ?_, ?_, ?_, ?_, ?_, ?_, ?_, ?_, ?_⟩
  · intro i j j' hjj hj'
    rw [taper_x_front_phase w dx x0 xg hw hdx hxg i j,
      taper_x_front_phase w dx x0 xg hw hdx hxg i j']
    exact taper_phase_mono w j j' hw hjj (by omega)
  · intro i j j' hband hjj hj
    rw [taper_x_back_phase m w dx x0 xg hw hdx hxg i j (by omega),
      taper_x_back_phase m w dx x0 xg hw hdx hxg i j' (by omega)]
    exact taper_phase_mono w (m - 1 - j) (m - 1 - j') hw (by omega) (by omega)
  · intro i i' j hii hi'
    rw [taper_y_front_phase w dx y0 yg hw hdx hyg i j,
      taper_y_front_phase w dx y0 yg hw hdx hyg i' j]
    exact taper_phase_mono w i i' hw hii (by omega)
  · intro i i' j hband hii hi
    rw [taper_y_back_phase n w dx y0 yg hw hdx hyg i j (by omega),
      taper_y_back_phase n w dx y0 yg hw hdx hyg i' j (by omega)]
    exact taper_phase_mono w (n - 1 - i) (n - 1 - i') hw (by omega) (by omega)
  · intro i
    unfold taper_x_front
    have e : xg i 0 - xg 0 0 = 0 := by rw [hxg, hxg]; ring
    rw [e, mul_zero, Real.sin_zero]
  · intro i
    unfold taper_x_back
    have e : xg 0 (m - 1) - xg i (m - 1) = 0 := by rw [hxg, hxg]; ring
    rw [e, mul_zero, Real.sin_zero]
  · intro j
    unfold taper_y_front
    have e : yg 0 j - yg 0 0 = 0 := by rw [hyg, hyg]; ring
    rw [e, mul_zero, Real.sin_zero]
  · intro j
    unfold taper_y_back
    have e : yg (n - 1) 0 - yg (n - 1) j = 0 := by rw [hyg, hyg]; ring
    rw [e, mul_zero, Real.sin_zero]
  · intro i j
    exact Real.sin_le_one _
  · intro i j
    exact Real.sin_le_one _
  · intro i j
    exact Real.sin_le_one _
  · intro i j
    exact Real.sin_le_one _

/-- Witness for C9: width 2, dx = 1, uniform coordinates on a 5×5 grid; the
x-front taper is non-decreasing from column 0 to column 1 and is 0 at
column 0. -/
theorem penalisation_taper_monotone_witness :
    taper_x_front 2 1 (fun _ j => (j : ℝ)) 4 0
      ≤ taper_x_front 2 1 (fun _ j => (j : ℝ)) 4 1 ∧
    taper_x_front 2 1 (fun _ j => (j : ℝ)) 4 0 = 0 := by
  have h := penalisation_taper_monotone 5 5 2 1 0 0 (fun _ j => (j : ℝ))
    (fun i _ => (i : ℝ)) (by norm_num) (by norm_num)
    (fun i j => by norm_num) (fun i j => by norm_num)
  exact ⟨h.1 4 0 1 (by norm_num) (by norm_num), h.2.2.2.2.1 4⟩

/-- C6 counterexample: constructing the boundary-penalisation kernel with a
valid width (the integer 1) but coordinate-field buffers of shape (3, 3)
mismatching the grid shape (8, 8) succeeds without error: the shapes are
never examined at construction. -/
theorem penalise_construction_ignores_shape :
    gen_penalise_field_boundary_pyst_kernel_2d_check
      ⟨⟨1, true⟩, (8, 8), (3, 3), (3, 3)⟩ = Except.ok () := by
  unfold gen_penalise_field_boundary_pyst_kernel_2d_check
  rw [if_pos]
  exact ⟨by norm_num, rfl⟩

/-- C6 amended: construction raises exactly when the width is not a positive
integer (`assert width > 0 and isinstance(width, int)`), before any kernel
is compiled; mismatched coordinate-field shapes are not checked at
construction, so for any positive integer width construction succeeds
regardless of the coordinate-field shapes. -/
theorem penalise_construction_check_iff (a : PenaliseConstructArgs) :
    gen_penalise_field_boundary_pyst_kernel_2d_check a = Except.ok ()
      ↔ 0 < a.width.val ∧ a.width.isInt = true := by
  unfold gen_penalise_field_boundary_pyst_kernel_2d_check
  split_ifs with h
  · simp [h]
  · simp [h]

/-- Witness for the amended C6: width 2 (an int) validates, on matching
shapes. -/
theorem penalise_construction_check_iff_witness :
    gen_penalise_field_boundary_pyst_kernel_2d_check
      ⟨⟨2, true⟩, (8, 8), (8, 8), (8, 8)⟩ = Except.ok () :=
  (penalise_construction_check_iff ⟨⟨2, true⟩, (8, 8), (8, 8), (8, 8)⟩).mpr
    ⟨by norm_num, rfl⟩

/-- C7: whenever the boundary-penalisation call completes (returning a final
field), every cell lying in none of the four edge bands of thickness
`width` is left unchanged: only band cells are ever written by the
broadcast and sine-taper stages. -/
theorem penalise_boundary_frame
    (n m w : ℕ) (dx : ℝ) (x_grid_field y_grid_field field g : Field2R)
    (i j : ℕ) (hw : 1 ≤ w) (hn : 2 * w < n) (hm : 2 * w < m)
    (hok : penalise_field_boundary_pyst_kernel_2d n m w dx x_grid_field
      y_grid_field field = Except.ok g)
    (hi1 : w ≤ i) (hi2 : i + w < n) (hj1 : w ≤ j) (hj2 : j + w < m) :
    g i j = field i j := by
  have h1 : ¬ j < w := by omega
  have h2 : ¬ m ≤ j + w := by omega
  have h3 : ¬ i < w := by omega
  have h4 : ¬ n ≤ i + w := by omega
  unfold penalise_field_boundary_pyst_kernel_2d at hok
  by_cases hw1 : w = 1
  · rw [if_pos hw1] at hok
    exact absurd hok (by simp)
  · rw [if_neg hw1] at hok
    have hg : g = penalise_field_boundary_stages_2d n m w dx x_grid_field
        y_grid_field field := by
      injection hok with h
      exact h.symm
    rw [hg]
    unfold penalise_field_boundary_stages_2d
      penalise_field_y_back_boundary_kernel_2d
      penalise_field_y_front_boundary_kernel_2d
      broadcast_y_back broadcast_y_front
      penalise_field_x_back_boundary_kernel_2d
      penalise_field_x_front_boundary_kernel_2d
      broadcast_x_back broadcast_x_front
    rw [if_neg h4, if_neg h3, if_neg h4, if_neg h3, if_neg h2, if_neg h1,
      if_neg h2, if_neg h1]

/-- Witness for C7: width 2 on a 5×5 grid with a constant field of value 1;
the call succeeds and the centre cell (2, 2) keeps its value. -/
theorem penalise_boundary_frame_witness :
    penalise_field_boundary_pyst_kernel_2d 5 5 2 1 (fun _ j => (j : ℝ))
      (fun i _ => (i : ℝ)) (fun _ _ => 1)
      = Except.ok (penalise_field_boundary_stages_2d 5 5 2 1
          (fun _ j => (j : ℝ)) (fun i _ => (i : ℝ)) (fun _ _ => 1)) ∧
    penalise_field_boundary_stages_2d 5 5 2 1 (fun _ j => (j : ℝ))
      (fun i _ => (i : ℝ)) (fun _ _ => 1) 2 2 = 1 := by
  constructor
  · rfl
  · exact penalise_boundary_frame 5 5 2 1 (fun _ j => (j : ℝ))
      (fun i _ => (i : ℝ)) (fun _ _ => 1)
      (penalise_field_boundary_stages_2d 5 5 2 1 (fun _ j => (j : ℝ))
        (fun i _ => (i : ℝ)) (fun _ _ => 1)) 2 2
      (by norm_num) (by norm_num) (by norm_num) rfl
      (by norm_num) (by norm_num) (by norm_num) (by norm_num)
